import Mathlib

/-!
Verification development for the `prtoken` reference implementation.

The definitions below are a shallow embedding of `src/prtoken/main.cc`
(the command-line entry point that issues probabilistic reveal tokens)
together with a model, taken from the specification, of the issuer and
verifier library whose implementation files are not part of the visible
sources.  Machine integers are modelled as `Nat`/`Int`, the stored value
of the `p_reveal` float flag as the exact rational it denotes, and the
effectful steps of the issuance routine as an explicit event trace.
-/

/-- Model of `absl::Status` restricted to the codes this program produces. -/
inductive AbslStatus where
  | ok
  | invalidArgument (msg : String)
  | internal (msg : String)
deriving DecidableEq

/-- Numeric value of a decimal digit character; `none` otherwise. -/
def digitVal? (c : Char) : Option Nat :=
  if '0' ≤ c ∧ c ≤ '9' then some (c.toNat - 48) else none

/-- Numeric value of a hexadecimal digit character; `none` otherwise. -/
def hexVal? (c : Char) : Option Nat :=
  if '0' ≤ c ∧ c ≤ '9' then some (c.toNat - 48)
  else if 'a' ≤ c ∧ c ≤ 'f' then some (c.toNat - 87)
  else if 'A' ≤ c ∧ c ≤ 'F' then some (c.toNat - 55)
  else none

/-- Loop of `inet_pton(AF_INET, ...)` as implemented by glibc, which is the
standard address-parsing primitive `IsValidIPAddress` and
`IPStringToByteArray` (src/prtoken/main.cc:62-91) wrap.  `sawDigit`,
`octets`, and the current octet value `cur` mirror the C locals; `acc`
holds the completed octets in network byte order. -/
def pton4Aux : List Char → Bool → Nat → List Nat → Nat → Option (List Nat)
  | [], _, octets, acc, cur =>
      if octets < 4 then none else some (acc ++ [cur])
  | c :: rest, sawDigit, octets, acc, cur =>
      match digitVal? c with
      | some d =>
          let n := cur * 10 + d
          if sawDigit ∧ cur = 0 then none
          else if 255 < n then none
          else if sawDigit then pton4Aux rest true octets acc n
          else if 4 ≤ octets then none
          else pton4Aux rest true (octets + 1) acc n
      | none =>
          if c = '.' ∧ sawDigit then
            if octets = 4 then none
            else pton4Aux rest false octets (acc ++ [cur]) 0
          else none

/-- Model of `inet_pton(AF_INET, s, ·)`: the four octets of a dotted-quad
IPv4 literal in network byte order, or `none` when `s` is not one. -/
def pton4 (s : List Char) : Option (List Nat) :=
  pton4Aux s false 0 [] 0

/-- Post-loop phase of glibc `inet_pton(AF_INET6, ...)`: expands the `::`
gap recorded in `colonp` with zero bytes and requires exactly 16 bytes. -/
def pton6Finish (bytes : List Nat) (colonp : Option Nat) : Option (List Nat) :=
  match colonp with
  | some pos =>
      if bytes.length = 16 then none
      else some (bytes.take pos ++ List.replicate (16 - bytes.length) 0 ++ bytes.drop pos)
  | none => if bytes.length = 16 then some bytes else none

/-- Loop of glibc `inet_pton(AF_INET6, ...)`.  `bytes` are the flushed
groups, `colonp` the byte position of a `::` if one was seen, `sawX`/`val`
the state of the current hexadecimal group, and `curtok` the suffix of the
input starting at the current group (used for a trailing IPv4 suffix). -/
def pton6Aux : List Char → List Nat → Option Nat → Bool → Nat → List Char → Option (List Nat)
  | [], bytes, colonp, sawX, val, _ =>
      if sawX then
        if 16 < bytes.length + 2 then none
        else pton6Finish (bytes ++ [val / 256, val % 256]) colonp
      else pton6Finish bytes colonp
  | c :: rest, bytes, colonp, sawX, val, curtok =>
      match hexVal? c with
      | some d =>
          let v := val * 16 + d
          if 65535 < v then none
          else pton6Aux rest bytes colonp true v curtok
      | none =>
          if c = ':' then
            if sawX = false then
              match colonp with
              | some _ => none
              | none => pton6Aux rest bytes (some bytes.length) false 0 rest
            else if rest = [] then none
            else if 16 < bytes.length + 2 then none
            else pton6Aux rest (bytes ++ [val / 256, val % 256]) colonp false 0 rest
          else if c = '.' ∧ bytes.length + 4 ≤ 16 then
            match pton4 curtok with
            | some b4 => pton6Finish (bytes ++ b4) colonp
            | none => none
          else none

/-- Model of `inet_pton(AF_INET6, s, ·)`: the 16 address bytes of an IPv6
literal, or `none` when `s` is not one.  A leading `:` must be the start
of a `::`. -/
def pton6 (s : List Char) : Option (List Nat) :=
  match s with
  | ':' :: rest =>
      match rest with
      | ':' :: _ => pton6Aux rest [] none false 0 rest
      | _ => none
  | _ => pton6Aux s [] none false 0 s

/-- `IsValidIPAddress` (src/prtoken/main.cc:62-67): the string parses as an
IPv4 or an IPv6 literal. -/
def IsValidIPAddress (s : String) : Bool :=
  (pton4 s.toList).isSome || (pton6 s.toList).isSome

/-- `prtoken::token_structure.signal_size`: signals are 16 bytes wide. -/
def SignalSizeLimit : Nat := 16

/-- `IPStringToByteArray` (src/prtoken/main.cc:72-91): tries IPv6 first,
then maps an IPv4 literal to the RFC 3493 IPv4-mapped IPv6 form (10 zero
bytes, two `0xff` bytes, then the 4 address bytes in network order). -/
def IPStringToByteArray (s : String) : Except AbslStatus (List Nat) :=
  match pton6 s.toList with
  | some bytes => .ok bytes
  | none =>
      match pton4 s.toList with
      | some b4 => .ok (List.replicate 10 0 ++ [255, 255] ++ b4)
      | none => .error (.invalidArgument "Invalid IPv4 or IPv6 address.")

/-- Bit length of a natural number below `2 ^ 256` (enough for every
magnitude a binary32 value or its product with a 32-bit integer can
take): the number of halvings needed to reach zero. -/
def natBits (m : Nat) : Nat :=
  ((List.range 256).foldl (fun st _ => if st.1 = 0 then st else (st.1 / 2, st.2 + 1)) (m, 0)).2

/-- Largest `e` with `2 ^ e ≤ q`, for positive rationals in the range
covered by `natBits`. -/
def floorLog2 (q : ℚ) : ℤ :=
  let e : ℤ := (natBits q.num.toNat : ℤ) - (natBits q.den : ℤ)
  if (2 : ℚ) ^ e ≤ q then e else e - 1

/-- Round a rational to the nearest integer, ties to even. -/
def roundTE (m : ℚ) : ℤ :=
  let f := m - (⌊m⌋ : ℚ)
  if f < 1 / 2 then ⌊m⌋
  else if 1 / 2 < f then ⌊m⌋ + 1
  else if ⌊m⌋ % 2 = 0 then ⌊m⌋ else ⌊m⌋ + 1

/-- Round a positive rational to 24 significant binary digits, nearest,
ties to even. -/
def rnePos (q : ℚ) : ℚ :=
  let ulp : ℚ := (2 : ℚ) ^ (floorLog2 q - 23)
  (roundTE (q / ulp) : ℚ) * ulp

/-- Model of rounding an exact rational to IEEE-754 binary32 (round to
nearest, ties to even), in the normal range: every float arithmetic step
of src/prtoken/main.cc:128 (`p_reveal * num_tokens`, including the
int-to-float conversion of `num_tokens`) rounds its exact result this
way.  Overflow and subnormal handling are not modelled; the values this
development evaluates stay far inside the normal range. -/
def rne32 (q : ℚ) : ℚ :=
  if q = 0 then 0 else if q < 0 then -(rnePos (-q)) else rnePos q

/-- Truncation toward zero: the effect of `static_cast<int>` on a float
value (src/prtoken/main.cc:128). -/
def castTrunc (q : ℚ) : ℤ :=
  if 0 ≤ q then ⌊q⌋ else -⌊-q⌋

/-- The reveal count the entry point hands to `IssueTokens`
(src/prtoken/main.cc:127-128): `num_tokens` is converted to float, the
product with the float `p_reveal` is computed in binary32, and the result
is truncated toward zero by `static_cast<int>`. -/
def numRevealOf (p : ℚ) (n : ℤ) : ℤ :=
  castTrunc (rne32 (p * rne32 (n : ℚ)))

/-- Model of `file::JoinPath` from ortools (used at
src/prtoken/main.cc:138 and 142): concatenates two path pieces with
exactly one `/` between them, keeping the other piece when one is empty. -/
def joinPath (a b : String) : String :=
  if b = "" then a
  else if a = "" then b
  else if a.toList.getLast? = some '/' then
    if b.toList.head? = some '/' then a ++ String.mk (b.toList.drop 1) else a ++ b
  else
    if b.toList.head? = some '/' then a ++ b else a ++ "/" ++ b

/-- Gregorian date for a day count since 1970-01-01 (the civil-from-days
algorithm used by standard UTC formatting). -/
def civilFromDays (z0 : Nat) : Nat × Nat × Nat :=
  let z := z0 + 719468
  let era := z / 146097
  let doe := z % 146097
  let yoe := (doe - doe / 1460 + doe / 36524 - doe / 146096) / 365
  let y := yoe + era * 400
  let doy := doe - (365 * yoe + yoe / 4 - yoe / 100)
  let mp := (5 * doy + 2) / 153
  let d := doy - (153 * mp + 2) / 5 + 1
  let m := if mp < 10 then mp + 3 else mp - 9
  (if m ≤ 2 then y + 1 else y, m, d)

/-- Left-pad the decimal representation of `n` with zeros to width `w`. -/
def padNat (w n : Nat) : String :=
  String.mk (List.replicate (w - (toString n).length) '0') ++ toString n

/-- Model of `absl::FormatTime("%Y%m%d%H%M%S", t, absl::UTCTimeZone())`
(src/prtoken/main.cc:136-137) on a Unix timestamp in seconds. -/
def formatUTC (t : Nat) : String :=
  let days := t / 86400
  let secs := t % 86400
  let ymd := civilFromDays days
  padNat 4 ymd.1 ++ padNat 2 ymd.2.1 ++ padNat 2 ymd.2.2 ++
    padNat 2 (secs / 3600) ++ padNat 2 (secs % 3600 / 60) ++ padNat 2 (secs % 60)

/-- Unused error constants declared at src/prtoken/main.cc:52-56. -/
def kErrorKeyGeneration : Nat := 1

/-- Unused error constant (src/prtoken/main.cc:53). -/
def kErrorSignalParsing : Nat := 2

/-- Unused error constant (src/prtoken/main.cc:54). -/
def kErrorTokenIssuance : Nat := 3

/-- Unused error constant (src/prtoken/main.cc:55). -/
def kErrorKeyWrite : Nat := 4

/-- Unused error constant (src/prtoken/main.cc:56). -/
def kErrorTokenWrite : Nat := 5

/-- One observable effect of the issuance routine, in program order. -/
inductive Event where
  | genKeypair
  | createIssuer
  | issueTokens (signal : List Nat) (numReveal : ℤ) (numTokens : ℤ)
  | writeKeys (path : String) (epochStart epochEnd : Nat)
  | writeTokens (path : String) (pReveal : ℚ) (epochEnd : Nat)
  | log (msg : String)
deriving DecidableEq

/-- The inputs of one run of the program: the flag values exactly as
stored (`pReveal` is the rational value of the binary32 float flag), the
success or failure of each fallible library call, and the clock read by
each successive `absl::Now()` call, in seconds. -/
structure Env where
  ip : String
  numTokens : ℤ
  pReveal : ℚ
  outputDir : String
  customDbFilename : String
  keygenOk : Bool
  issuerCreateOk : Bool
  issueOk : Bool
  keyWriteOk : Bool
  tokenWriteOk : Bool
  clock : Nat → Nat

/-- Epoch end time computed at src/prtoken/main.cc:134: a second
`absl::Now()` call plus 24 hours. -/
def epochEndOf (env : Env) : Nat := env.clock 1 + 86400

/-- Key file path (src/prtoken/main.cc:138-139). -/
def keyFileOf (env : Env) : String :=
  joinPath env.outputDir ("keys-" ++ formatUTC (epochEndOf env) ++ ".json")

/-- Token database path (src/prtoken/main.cc:140-146): `JoinPath` with the
custom filename when one is given, otherwise plain string concatenation
of `output_dir`, `"/tokens-"`, the timestamp, and `".db"`. -/
def dbFileOf (env : Env) : String :=
  if env.customDbFilename ≠ "" then joinPath env.outputDir env.customDbFilename
  else env.outputDir ++ "/tokens-" ++ formatUTC (epochEndOf env) ++ ".db"

/-- `GenerateAndStoreTokens` (src/prtoken/main.cc:94-159) as a function
from the run inputs to the returned status and the trace of attempted
effects, following the control flow of the source line by line. -/
def GenerateAndStoreTokens (env : Env) : AbslStatus × List Event :=
  if IsValidIPAddress env.ip then
    if env.keygenOk then
      if env.issuerCreateOk then
        match IPStringToByteArray env.ip with
        | .ok signal =>
            if env.issueOk then
              if env.keyWriteOk then
                if env.tokenWriteOk then
                  (.ok,
                    [.genKeypair, .createIssuer,
                      .issueTokens signal (numRevealOf env.pReveal env.numTokens) env.numTokens,
                      .writeKeys (keyFileOf env) (env.clock 0) (epochEndOf env),
                      .writeTokens (dbFileOf env) env.pReveal (epochEndOf env)])
                else
                  (.internal "Failed to write tokens to file.",
                    [.genKeypair, .createIssuer,
                      .issueTokens signal (numRevealOf env.pReveal env.numTokens) env.numTokens,
                      .writeKeys (keyFileOf env) (env.clock 0) (epochEndOf env),
                      .writeTokens (dbFileOf env) env.pReveal (epochEndOf env)])
              else
                (.internal "Failed to write keys to file.",
                  [.genKeypair, .createIssuer,
                    .issueTokens signal (numRevealOf env.pReveal env.numTokens) env.numTokens,
                    .writeKeys (keyFileOf env) (env.clock 0) (epochEndOf env)])
            else
              (.internal "Failed to issue tokens.",
                [.genKeypair, .createIssuer,
                  .issueTokens signal (numRevealOf env.pReveal env.numTokens) env.numTokens])
        | .error st => (st, [.genKeypair, .createIssuer])
      else (.internal "Failed to create issuer.", [.genKeypair, .createIssuer])
    else (.internal "Failed to generate ElGamal keypair.", [.genKeypair])
  else (.invalidArgument "Invalid IP address.", [])

/-- Message carried by a status, as printed by `LOG(ERROR)`. -/
def statusMessage : AbslStatus → String
  | .ok => ""
  | .invalidArgument m => m
  | .internal m => m

/-- `main` (src/prtoken/main.cc:163-186) as a function from the
positional arguments (`pop_args`, whose head is the program name) and
run inputs to the process exit code and effect trace. -/
def mainRun (popArgs : List String) (env : Env) : Nat × List Event :=
  match popArgs with
  | _ :: cmd :: _ =>
      if cmd = "issue" then
        match GenerateAndStoreTokens env with
        | (st, tr) => if st = .ok then (0, tr) else (1, tr ++ [.log (statusMessage st)])
      else if cmd = "verify" then (0, [])
      else (1, [.log ("Usage: prtoken <issue|verify> [options]\nbut got: " ++ cmd ++ "\n")])
  | _ => (1, [.log "Usage: prtoken <issue|verify> [options]\n"])

/-- The five effects of a fully successful issuance run, in program
order. -/
def fullTrace (env : Env) : List Event :=
  match IPStringToByteArray env.ip with
  | .error _ => []
  | .ok signal =>
      [.genKeypair, .createIssuer,
        .issueTokens signal (numRevealOf env.pReveal env.numTokens) env.numTokens,
        .writeKeys (keyFileOf env) (env.clock 0) (epochEndOf env),
        .writeTokens (dbFileOf env) env.pReveal (epochEndOf env)]

/-- How many of the five effects a run attempts before its first failing
step (all five when the only failure is the final token write, whose
attempt is still part of the trace). -/
def stepsOf (env : Env) : Nat :=
  if IsValidIPAddress env.ip then
    if env.keygenOk then
      if env.issuerCreateOk then
        if env.issueOk then
          if env.keyWriteOk then 5 else 4
        else 3
      else 2
    else 1
  else 0

/-- First reveal count handed to `IssueTokens` in a trace. -/
def findIssueReveal : List Event → Option ℤ
  | [] => none
  | .issueTokens _ nr _ :: _ => some nr
  | _ :: rest => findIssueReveal rest

/-- First key-file write in a trace. -/
def findWriteKeys : List Event → Option (String × Nat × Nat)
  | [] => none
  | .writeKeys p s e :: _ => some (p, s, e)
  | _ :: rest => findWriteKeys rest

/-- First token-database write in a trace. -/
def findWriteTokens : List Event → Option (String × ℚ × Nat)
  | [] => none
  | .writeTokens p q e :: _ => some (p, q, e)
  | _ :: rest => findWriteTokens rest

/-- Whether a trace contains a key-file write. -/
def hasWriteKeys (tr : List Event) : Bool :=
  tr.any fun ev => match ev with | .writeKeys _ _ _ => true | _ => false

/-- Whether a trace contains a token-database write. -/
def hasWriteTokens (tr : List Event) : Bool :=
  tr.any fun ev => match ev with | .writeTokens _ _ _ => true | _ => false

/-- Modelled from the spec: the fixed-width signal payload of a token
(token.cc is not under src/). -/
def Signal : Type := List Nat

instance : DecidableEq Signal := by
  unfold Signal
  infer_instance

/-- Modelled from the spec: an EC-ElGamal ciphertext (issuer.cc is not
under src/).  Encryption with fresh per-token randomness is modelled as
pairing the plaintext signal with the nonce; decryption with the matching
private key recovers the plaintext exactly. -/
structure ElGamalCiphertext where
  payload : Signal
  nonce : Nat
deriving DecidableEq

/-- Modelled from the spec: per-token verification outcome (verifier.cc
is not under src/). -/
inductive VerificationResult where
  | Revealed (s : Signal)
  | Blinded
  | Malformed (reason : String)
deriving DecidableEq

/-- Modelled from the spec: ElGamal encryption under the epoch public key
with fresh randomness `nonce` (issuer.cc is not under src/). -/
def Encrypt (pt : Signal) (nonce : Nat) : ElGamalCiphertext :=
  ⟨pt, nonce⟩

/-- Modelled from the spec: `DecryptToken` with the matching private key
on a correctly minted token — decryption recovers the plaintext block,
whose integrity tag and epoch tag are valid by construction, so the
outcome is `Revealed` exactly when the decoded signal equals the expected
one and `Blinded` otherwise (verifier.cc is not under src/). -/
def DecryptToken (ct : ElGamalCiphertext) (expected : Signal) : VerificationResult :=
  if ct.payload = expected then .Revealed ct.payload else .Blinded

/-- Whether a verification outcome is a reveal. -/
def isRevealed : VerificationResult → Bool
  | .Revealed _ => true
  | _ => false

/-- Modelled from the spec: `Issuer::IssueTokens` (issuer.cc is not under
src/).  Exactly `numReveal` of the `numTokens` positions — the first
`numReveal` entries of a uniformly random permutation `perm` of the token
positions — carry the true signal; every other position carries an
independently sampled random signal `rand i`; each plaintext is encrypted
with fresh per-token randomness `nonces i`; the ciphertexts are appended
to the output vector `out`. -/
def IssueTokens (signal : Signal) (numReveal numTokens : Nat) (perm : List Nat)
    (rand : Nat → Signal) (nonces : Nat → Nat) (out : List ElGamalCiphertext) :
    List ElGamalCiphertext :=
  out ++ (List.range numTokens).map fun i =>
    Encrypt (if i ∈ perm.take numReveal then signal else rand i) (nonces i)

/-- Counting lemma: the members of a duplicate-free list `S` of positions
below `n` are met exactly `S.length` times while scanning `0, …, n-1`. -/
theorem countP_mem_range (S : List Nat) (n : Nat) (h1 : S.Nodup)
    (h2 : ∀ x ∈ S, x < n) :
    (List.range n).countP (fun i => decide (i ∈ S)) = S.length := by
  rw [List.countP_eq_length_filter]
  have hperm : List.Perm ((List.range n).filter (fun i => decide (i ∈ S))) S := by
    refine (List.perm_ext_iff_of_nodup (List.Nodup.filter _ (List.nodup_range n)) h1).mpr ?_
    intro a
    simp only [List.mem_filter, List.mem_range, decide_eq_true_eq]
    exact ⟨fun h => h.2, fun h => ⟨h2 a h, h⟩⟩
  exact hperm.length_eq

/-- Counting the complement: positions failing a test are all but those
passing it. -/
theorem countP_bnot {α : Type} (p : α → Bool) (l : List α) :
    l.countP (fun a => !p a) = l.length - l.countP p := by
  induction l with
  | nil => rfl
  | cons a t ih =>
    have hle := List.countP_le_length p (l := t)
    by_cases h : p a = true
    · rw [List.countP_cons_of_pos _ _ h, List.countP_cons_of_neg _ _ (by simp [h])]
      simp only [List.length_cons]
      omega
    · rw [List.countP_cons_of_neg _ _ h, List.countP_cons_of_pos (fun a => !p a) _ (by simp [h])]
      simp only [List.length_cons]
      omega

/-- C1: for every valid fixed-width signal and every
`num_reveal ≤ num_tokens`, a successful `IssueTokens` call appends
exactly `num_tokens` ciphertexts to the output vector, and decrypting
each with the matching private key and comparing against the signal
classifies exactly `num_reveal` of them as Revealed and the remaining
`num_tokens - num_reveal` as Blinded. -/
theorem C1_issue_tokens_exact_reveal (signal : Signal) (numReveal numTokens : Nat)
    (perm : List Nat) (rand : Nat → Signal) (nonces : Nat → Nat)
    (out : List ElGamalCiphertext)
    (_hsig : signal.length = SignalSizeLimit)
    (hperm : List.Perm perm (List.range numTokens))
    (hr : numReveal ≤ numTokens)
    (hrand : ∀ i, rand i ≠ signal) :
    ∃ minted : List ElGamalCiphertext,
      IssueTokens signal numReveal numTokens perm rand nonces out = out ++ minted ∧
      minted.length = numTokens ∧
      minted.countP (fun ct => isRevealed (DecryptToken ct signal)) = numReveal ∧
      minted.countP (fun ct => !isRevealed (DecryptToken ct signal)) =
        numTokens - numReveal := by
  have hS1 : (perm.take numReveal).Nodup :=
    List.Nodup.sublist (List.take_sublist _ _)
      (hperm.nodup_iff.mpr (List.nodup_range numTokens))
  have hS2 : ∀ x ∈ perm.take numReveal, x < numTokens := by
    intro x hx
    exact List.mem_range.mp (hperm.mem_iff.mp (List.mem_of_mem_take hx))
  have hlen : (perm.take numReveal).length = numReveal := by
    rw [List.length_take, hperm.length_eq, List.length_range]
    omega
  have hpt : ∀ i ∈ List.range numTokens,
      (fun i => isRevealed (DecryptToken
          (Encrypt (if i ∈ perm.take numReveal then signal else rand i) (nonces i)) signal)) i
        = (fun i => decide (i ∈ perm.take numReveal)) i := by
    intro i _
    by_cases h : i ∈ perm.take numReveal <;>
      simp [h, Encrypt, DecryptToken, isRevealed, hrand i]
  have hcount : ((List.range numTokens).map fun i =>
      Encrypt (if i ∈ perm.take numReveal then signal else rand i) (nonces i)).countP
        (fun ct => isRevealed (DecryptToken ct signal)) = numReveal := by
    rw [List.countP_map]
    calc (List.range numTokens).countP ((fun ct => isRevealed (DecryptToken ct signal)) ∘
            fun i => Encrypt (if i ∈ perm.take numReveal then signal else rand i) (nonces i))
        = (List.range numTokens).countP (fun i => decide (i ∈ perm.take numReveal)) := by
          refine List.countP_congr ?_
          intro x hx
          have := hpt x hx
          simp only [Function.comp] at this ⊢
          rw [this]
      _ = numReveal := by rw [countP_mem_range _ _ hS1 hS2, hlen]
  refine ⟨_, rfl, by simp, hcount, ?_⟩
  have htot := countP_bnot (fun ct => isRevealed (DecryptToken ct signal))
    ((List.range numTokens).map fun i =>
      Encrypt (if i ∈ perm.take numReveal then signal else rand i) (nonces i))
  have hlen2 : ((List.range numTokens).map fun i =>
      Encrypt (if i ∈ perm.take numReveal then signal else rand i) (nonces i)).length
        = numTokens := by simp
  omega

/-- A string accepted by the IPv4 parser contains no colon: its loop
accepts only decimal digits and dots. -/
theorem pton4Aux_no_colon : ∀ (src : List Char) (sd : Bool) (oct : Nat)
    (acc : List Nat) (cur : Nat) (b : List Nat),
    pton4Aux src sd oct acc cur = some b → ':' ∉ src := by
  intro src
  induction src with
  | nil =>
    intro sd oct acc cur b _
    simp
  | cons c rest ih =>
    intro sd oct acc cur b h
    simp only [List.mem_cons, not_or]
    cases hd : digitVal? c with
    | some d =>
      have hc : ':' ≠ c := by
        intro hcc
        rw [← hcc] at hd
        simp [digitVal?] at hd
      simp only [pton4Aux, hd] at h
      refine ⟨hc, ?_⟩
      split at h
      · exact absurd h (by simp)
      · split at h
        · exact absurd h (by simp)
        · split at h
          · exact ih _ _ _ _ _ h
          · split at h
            · exact absurd h (by simp)
            · exact ih _ _ _ _ _ h
    | none =>
      simp only [pton4Aux, hd] at h
      split at h
      · rename_i hdot
        refine ⟨?_, ?_⟩
        · intro hcc
          rw [← hcc] at hdot
          simp at hdot
        · split at h
          · exact absurd h (by simp)
          · exact ih _ _ _ _ _ h
      · exact absurd h (by simp)

/-- A successful IPv4 parse yields exactly four octets.  The invariant
relates the octet counter to the accumulator as in the C loop. -/
theorem pton4Aux_length : ∀ (src : List Char) (sd : Bool) (oct : Nat)
    (acc : List Nat) (cur : Nat) (b : List Nat),
    pton4Aux src sd oct acc cur = some b →
    (sd = true → oct = acc.length + 1 ∧ oct ≤ 4) →
    (sd = false → oct = acc.length ∧ oct ≤ 3) →
    b.length = 4 := by
  intro src
  induction src with
  | nil =>
    intro sd oct acc cur b h hT hF
    simp only [pton4Aux] at h
    split at h
    · exact absurd h (by simp)
    · rename_i hoct
      have hb : b = acc ++ [cur] := by
        have := h
        simp at this
        exact this.symm
      cases sd with
      | true =>
        obtain ⟨h1, h2⟩ := hT rfl
        subst hb
        simp [List.length_append]
        omega
      | false =>
        obtain ⟨h1, h2⟩ := hF rfl
        omega
  | cons c rest ih =>
    intro sd oct acc cur b h hT hF
    cases hd : digitVal? c with
    | some d =>
      simp only [pton4Aux, hd] at h
      split at h
      · exact absurd h (by simp)
      · split at h
        · exact absurd h (by simp)
        · split at h
          · rename_i hsd
            refine ih _ _ _ _ _ h (fun _ => ?_) (by simp)
            exact hT hsd
          · split at h
            · exact absurd h (by simp)
            · rename_i hsd hoct
              cases sd with
              | true => exact absurd rfl hsd
              | false =>
                obtain ⟨h1, h2⟩ := hF rfl
                refine ih _ _ _ _ _ h (fun _ => ?_) (by simp)
                omega
    | none =>
      simp only [pton4Aux, hd] at h
      split at h
      · rename_i hdot
        split at h
        · exact absurd h (by simp)
        · rename_i hoct
          have hsd : sd = true := hdot.2
          obtain ⟨h1, h2⟩ := hT hsd
          refine ih _ _ _ _ _ h (by simp) (fun _ => ?_)
          simp [List.length_append]
          omega
      · exact absurd h (by simp)

/-- The four octets of an accepted IPv4 literal. -/
theorem pton4_length (s : List Char) (b : List Nat) (h : pton4 s = some b) :
    b.length = 4 :=
  pton4Aux_length s false 0 [] 0 b h (by simp) (by simp)

/-- No colon, hence accepted by the IPv4 parser only. -/
theorem pton4_no_colon (s : List Char) (b : List Nat) (h : pton4 s = some b) :
    ':' ∉ s :=
  pton4Aux_no_colon s false 0 [] 0 b h

/-- Without a colon the IPv6 loop can flush at most one group (2 bytes)
or one IPv4 suffix (4 bytes), never the 16 an address needs, and records
no `::`; it therefore rejects every colon-free string. -/
theorem pton6Aux_no_colon : ∀ (src : List Char), ':' ∉ src →
    ∀ (bytes : List Nat) (sawX : Bool) (val : Nat) (curtok : List Char),
    bytes.length ≤ 8 → pton6Aux src bytes none sawX val curtok = none := by
  intro src
  induction src with
  | nil =>
    intro _ bytes sawX val curtok hlen
    have h2 : ¬((bytes ++ [val / 256, val % 256]).length = 16) := by
      simp only [List.length_append, List.length_cons, List.length_nil]
      omega
    simp only [pton6Aux]
    split
    · split
      · rfl
      · simp only [pton6Finish]
        rw [if_neg h2]
    · simp only [pton6Finish]
      rw [if_neg (show ¬(bytes.length = 16) by omega)]
  | cons c rest ih =>
    intro hmem bytes sawX val curtok hlen
    have hc : ¬(c = ':') := by
      intro hcc
      exact hmem (by rw [hcc]; exact List.mem_cons_self _ _)
    have hrest : ':' ∉ rest := fun hr => hmem (List.mem_cons_of_mem _ hr)
    cases hx : hexVal? c with
    | some d =>
      simp only [pton6Aux, hx]
      split
      · rfl
      · exact ih hrest bytes true _ curtok hlen
    | none =>
      simp only [pton6Aux, hx]
      rw [if_neg hc]
      split
      · cases h4 : pton4 curtok with
        | some b4 =>
          have hb4 : b4.length = 4 := pton4_length curtok b4 h4
          simp only [pton6Finish]
          rw [if_neg (show ¬((bytes ++ b4).length = 16) by
            simp only [List.length_append, hb4]; omega)]
        | none => rfl
      · rfl

/-- A colon-free string is not an IPv6 literal. -/
theorem pton6_no_colon (s : List Char) (h : ':' ∉ s) : pton6 s = none := by
  cases s with
  | nil => exact pton6Aux_no_colon [] h [] false 0 [] (by simp)
  | cons c rest =>
    have hc : ¬(c = ':') := by
      intro hcc
      exact h (by rw [hcc]; exact List.mem_cons_self _ _)
    unfold pton6
    split
    · rename_i xs heq
      injection heq with h1 h2
      exact absurd h1 hc
    · exact pton6Aux_no_colon (c :: rest) h [] false 0 (c :: rest) (by simp)

/-- A string accepted by `IsValidIPAddress` converts to a signal. -/
theorem valid_ip_ok (s : String) (h : IsValidIPAddress s = true) :
    ∃ b, IPStringToByteArray s = Except.ok b := by
  unfold IsValidIPAddress at h
  unfold IPStringToByteArray
  cases h6 : pton6 s.toList with
  | some b => exact ⟨b, rfl⟩
  | none =>
    cases h4 : pton4 s.toList with
    | some b4 => exact ⟨_, rfl⟩
    | none =>
      rw [h4, h6] at h
      simp at h

/-- C3: when the IP flag is not a valid IPv4 or IPv6 literal, the
issuance operation returns `InvalidArgument` with an empty effect trace:
no key generation is attempted and neither the key file nor the token
database is written. -/
theorem C3_invalid_ip_rejected (env : Env) (h : IsValidIPAddress env.ip = false) :
    GenerateAndStoreTokens env = (.invalidArgument "Invalid IP address.", []) := by
  unfold GenerateAndStoreTokens
  rw [h]
  simp

/-- C4: a valid IPv6 literal converts to its 16 raw address bytes, and a
valid IPv4 literal (which no IPv6 parse accepts, since it has no colon)
converts to the RFC 3493 IPv4-mapped form: 10 zero bytes, `0xff` at
indices 10 and 11, then the 4 address bytes in network byte order. -/
theorem C4_signal_encoding (s : String) :
    (∀ b, pton6 s.toList = some b → IPStringToByteArray s = Except.ok b) ∧
    (∀ b4, pton4 s.toList = some b4 →
      IPStringToByteArray s = Except.ok (List.replicate 10 0 ++ [255, 255] ++ b4)) := by
  constructor
  · intro b h6
    unfold IPStringToByteArray
    rw [h6]
  · intro b4 h4
    have h6 : pton6 s.toList = none := pton6_no_colon _ (pton4_no_colon _ _ h4)
    unfold IPStringToByteArray
    rw [h6, h4]

/-- Inputs that exercise the IPv4 and the IPv6 conversion paths. -/
theorem C4_signal_encoding_witness :
    pton6 "::1".toList = some [0, 0, 0, 0, 0, 0, 0, 0, 0, 0, 0, 0, 0, 0, 0, 1] ∧
    IPStringToByteArray "::1" =
      Except.ok [0, 0, 0, 0, 0, 0, 0, 0, 0, 0, 0, 0, 0, 0, 0, 1] ∧
    pton4 "192.0.2.1".toList = some [192, 0, 2, 1] ∧
    IPStringToByteArray "192.0.2.1" =
      Except.ok (List.replicate 10 0 ++ [255, 255] ++ [192, 0, 2, 1]) :=
  ⟨by decide, (C4_signal_encoding "::1").1 _ (by decide), by decide,
    (C4_signal_encoding "192.0.2.1").2 _ (by decide)⟩

/-- Extraction: whenever the run reaches the minting step, the reveal
count passed to `IssueTokens` is the float-computed one. -/
theorem findIssueReveal_eq (env : Env) (hip : IsValidIPAddress env.ip = true)
    (hk : env.keygenOk = true) (hc : env.issuerCreateOk = true) :
    findIssueReveal (GenerateAndStoreTokens env).2 =
      some (numRevealOf env.pReveal env.numTokens) := by
  obtain ⟨b, hb⟩ := valid_ip_ok env.ip hip
  cases hi : env.issueOk <;> cases hw : env.keyWriteOk <;> cases ht : env.tokenWriteOk <;>
    simp [GenerateAndStoreTokens, hip, hk, hc, hb, hi, hw, ht, findIssueReveal]

/-- Extraction: the key-file write the run attempts. -/
theorem findWriteKeys_eq (env : Env) (hip : IsValidIPAddress env.ip = true)
    (hk : env.keygenOk = true) (hc : env.issuerCreateOk = true)
    (hi : env.issueOk = true) :
    findWriteKeys (GenerateAndStoreTokens env).2 =
      some (keyFileOf env, env.clock 0, epochEndOf env) := by
  obtain ⟨b, hb⟩ := valid_ip_ok env.ip hip
  cases hw : env.keyWriteOk <;> cases ht : env.tokenWriteOk <;>
    simp [GenerateAndStoreTokens, hip, hk, hc, hi, hb, hw, ht, findWriteKeys]

/-- Extraction: the token-database write the run attempts. -/
theorem findWriteTokens_eq (env : Env) (hip : IsValidIPAddress env.ip = true)
    (hk : env.keygenOk = true) (hc : env.issuerCreateOk = true)
    (hi : env.issueOk = true) (hw : env.keyWriteOk = true) :
    findWriteTokens (GenerateAndStoreTokens env).2 =
      some (dbFileOf env, env.pReveal, epochEndOf env) := by
  obtain ⟨b, hb⟩ := valid_ip_ok env.ip hip
  cases ht : env.tokenWriteOk <;>
    simp [GenerateAndStoreTokens, hip, hk, hc, hi, hw, hb, ht, findWriteTokens]

/-- C2 (amended): the issuance entry point passes `IssueTokens` a reveal
count equal to the binary32 product of the stored `p_reveal` float and
the float conversion of `num_tokens`, rounded to nearest (ties to even)
and then truncated toward zero — not the floor of the exact mathematical
product, from which it differs when the float rounding crosses an integer
boundary. -/
theorem C2_reveal_count_float (env : Env) (hip : IsValidIPAddress env.ip = true)
    (hk : env.keygenOk = true) (hc : env.issuerCreateOk = true) :
    findIssueReveal (GenerateAndStoreTokens env).2 =
      some (castTrunc (rne32 (env.pReveal * rne32 (env.numTokens : ℚ)))) := by
  simpa [numRevealOf] using findIssueReveal_eq env hip hk hc

/-- Run inputs with the stored float value of `--p_reveal 0.29`
(`9730785 / 2^25`, the binary32 nearest to 0.29) and 100 tokens. -/
def envC2 : Env :=
  { ip := "192.0.2.1", numTokens := 100, pReveal := (9730785 : ℚ) / 33554432,
    outputDir := "/tmp/", customDbFilename := "", keygenOk := true,
    issuerCreateOk := true, issueOk := true, keyWriteOk := true,
    tokenWriteOk := true, clock := fun _ => 0 }

set_option maxRecDepth 10000 in
unseal Rat.mul Rat.inv Rat.add Rat.sub in
/-- C2 counterexample: with `p_reveal = 0.29f` and `num_tokens = 100` the
entry point passes a reveal count of 29, while the floor of the exact
product of the configured values is 28: the float product rounds up
across the integer 29 before the cast truncates. -/
theorem C2_reveal_count_counterexample :
    findIssueReveal (GenerateAndStoreTokens envC2).2 = some 29 ∧
    ⌊envC2.pReveal * (envC2.numTokens : ℚ)⌋ = 28 ∧ (29 : ℤ) ≠ 28 := by
  refine ⟨?_, by decide, by decide⟩
  rw [findIssueReveal_eq envC2 (by decide) rfl rfl]
  decide

/-- The float reveal-count computation observed at a concrete input. -/
theorem C2_reveal_count_float_witness :
    IsValidIPAddress envC2.ip = true ∧
    findIssueReveal (GenerateAndStoreTokens envC2).2 =
      some (castTrunc (rne32 (envC2.pReveal * rne32 (envC2.numTokens : ℚ)))) :=
  ⟨by decide, C2_reveal_count_float envC2 (by decide) rfl rfl⟩

/-- Run inputs with an unparsable IP flag. -/
def envC3 : Env :=
  { ip := "not-an-ip", numTokens := 100, pReveal := 1 / 10, outputDir := "/tmp/",
    customDbFilename := "", keygenOk := true, issuerCreateOk := true,
    issueOk := true, keyWriteOk := true, tokenWriteOk := true, clock := fun _ => 0 }

/-- The invalid-IP rejection observed at a concrete input. -/
theorem C3_invalid_ip_rejected_witness :
    IsValidIPAddress envC3.ip = false ∧
    GenerateAndStoreTokens envC3 = (.invalidArgument "Invalid IP address.", []) :=
  ⟨by decide, C3_invalid_ip_rejected envC3 (by decide)⟩

/-- C5 (amended): the recorded epoch_start_time is the first clock
reading, and the recorded epoch_end_time is a second clock reading —
taken by a separate `absl::Now()` call immediately after — plus exactly
24 hours; the window spans exactly 24 hours precisely when the clock
does not advance between the two adjacent reads. -/
theorem C5_epoch_window (env : Env) (hip : IsValidIPAddress env.ip = true)
    (hk : env.keygenOk = true) (hc : env.issuerCreateOk = true)
    (hi : env.issueOk = true) :
    findWriteKeys (GenerateAndStoreTokens env).2 =
      some (keyFileOf env, env.clock 0, env.clock 1 + 86400) :=
  findWriteKeys_eq env hip hk hc hi

/-- Run inputs whose clock advances one second between adjacent reads. -/
def envC5 : Env :=
  { ip := "192.0.2.1", numTokens := 100, pReveal := 0, outputDir := "/tmp/",
    customDbFilename := "", keygenOk := true, issuerCreateOk := true,
    issueOk := true, keyWriteOk := true, tokenWriteOk := true, clock := fun i => i }

/-- C5 counterexample: when the clock advances between the two adjacent
`absl::Now()` calls, the recorded window is start 0, end 86401 — not the
claimed start plus exactly 24 hours (86400). -/
theorem C5_epoch_window_counterexample :
    findWriteKeys (GenerateAndStoreTokens envC5).2 =
      some ("/tmp/keys-19700102000001.json", 0, 86401) ∧
    (86401 : Nat) ≠ 0 + 86400 := by
  refine ⟨?_, by decide⟩
  rw [findWriteKeys_eq envC5 (by decide) rfl rfl rfl]
  decide

/-- The epoch window recording observed at a concrete input. -/
theorem C5_epoch_window_witness :
    IsValidIPAddress envC5.ip = true ∧
    findWriteKeys (GenerateAndStoreTokens envC5).2 =
      some (keyFileOf envC5, envC5.clock 0, envC5.clock 1 + 86400) :=
  ⟨by decide, C5_epoch_window envC5 (by decide) rfl rfl rfl⟩

/-- C6 (amended): the key file is written at `output_dir` path-joined
with `keys-<T>.json`, and with a custom database filename the token
database at `output_dir` path-joined with it; without one, however, the
token database path is the plain string concatenation
`output_dir ++ "/tokens-<T>.db"`, which differs from the path-join
whenever `output_dir` ends in a slash. -/
theorem C6_output_paths (env : Env) (hip : IsValidIPAddress env.ip = true)
    (hk : env.keygenOk = true) (hc : env.issuerCreateOk = true)
    (hi : env.issueOk = true) (hw : env.keyWriteOk = true) :
    findWriteKeys (GenerateAndStoreTokens env).2 =
      some (joinPath env.outputDir ("keys-" ++ formatUTC (epochEndOf env) ++ ".json"),
        env.clock 0, epochEndOf env) ∧
    findWriteTokens (GenerateAndStoreTokens env).2 =
      some ((if env.customDbFilename ≠ "" then joinPath env.outputDir env.customDbFilename
          else env.outputDir ++ "/tokens-" ++ formatUTC (epochEndOf env) ++ ".db"),
        env.pReveal, epochEndOf env) :=
  ⟨findWriteKeys_eq env hip hk hc hi, findWriteTokens_eq env hip hk hc hi hw⟩

/-- Run inputs with the default `--output_dir /tmp/` and no custom
database filename. -/
def envC6 : Env :=
  { ip := "192.0.2.1", numTokens := 100, pReveal := 0, outputDir := "/tmp/",
    customDbFilename := "", keygenOk := true, issuerCreateOk := true,
    issueOk := true, keyWriteOk := true, tokenWriteOk := true, clock := fun _ => 0 }

/-- C6 counterexample: with the default `output_dir` `/tmp/` the token
database is written at `/tmp//tokens-<T>.db` (plain concatenation with a
doubled slash), which is not `output_dir` joined with `tokens-<T>.db`
the way the key file is joined. -/
theorem C6_output_paths_counterexample :
    findWriteTokens (GenerateAndStoreTokens envC6).2 =
      some ("/tmp//tokens-19700102000000.db", 0, 86400) ∧
    joinPath "/tmp/" "tokens-19700102000000.db" = "/tmp/tokens-19700102000000.db" ∧
    ("/tmp//tokens-19700102000000.db" : String) ≠ "/tmp/tokens-19700102000000.db" := by
  refine ⟨?_, by decide, by decide⟩
  rw [findWriteTokens_eq envC6 (by decide) rfl rfl rfl rfl]
  decide

/-- The output paths observed at a concrete input. -/
theorem C6_output_paths_witness :
    IsValidIPAddress envC6.ip = true ∧
    (findWriteKeys (GenerateAndStoreTokens envC6).2 =
      some (joinPath envC6.outputDir ("keys-" ++ formatUTC (epochEndOf envC6) ++ ".json"),
        envC6.clock 0, epochEndOf envC6) ∧
    findWriteTokens (GenerateAndStoreTokens envC6).2 =
      some ((if envC6.customDbFilename ≠ "" then joinPath envC6.outputDir envC6.customDbFilename
          else envC6.outputDir ++ "/tokens-" ++ formatUTC (epochEndOf envC6) ++ ".db"),
        envC6.pReveal, epochEndOf envC6)) :=
  ⟨by decide, C6_output_paths envC6 (by decide) rfl rfl rfl rfl⟩

/-- A concrete 16-byte signal for exercising the issuer model. -/
def sigC1 : Signal := List.replicate 16 0

/-- A concrete random-signal oracle whose samples differ from `sigC1`. -/
def randC1 : Nat → Signal := fun _ => List.replicate 16 1

/-- Samples of the random-signal oracle differ from the true signal. -/
theorem randC1_ne (i : Nat) : randC1 i ≠ sigC1 := by
  show List.replicate 16 1 ≠ List.replicate 16 0
  decide

/-- The exact-count reveal selection observed at a concrete input. -/
theorem C1_issue_tokens_exact_reveal_witness :
    sigC1.length = SignalSizeLimit ∧
    List.Perm [2, 0, 1] (List.range 3) ∧
    (1 : Nat) ≤ 3 ∧
    (∀ i, randC1 i ≠ sigC1) ∧
    ∃ minted : List ElGamalCiphertext,
      IssueTokens sigC1 1 3 [2, 0, 1] randC1 (fun i => i) [] = [] ++ minted ∧
      minted.length = 3 ∧
      minted.countP (fun ct => isRevealed (DecryptToken ct sigC1)) = 1 ∧
      minted.countP (fun ct => !isRevealed (DecryptToken ct sigC1)) = 3 - 1 :=
  ⟨by decide, by decide, by decide, fun i => randC1_ne i,
    C1_issue_tokens_exact_reveal sigC1 1 3 [2, 0, 1] randC1 (fun i => i) []
      (by decide) (by decide) (by decide) (fun i => randC1_ne i)⟩

/-- C7: the effect trace of every run is the canonical sequence
genKeypair, createIssuer, issueTokens, writeKeys, writeTokens cut at the
first failing step; a token-database write only ever happens after a
successful key write, and neither file is written when issuance fails. -/
theorem C7_step_order (env : Env) :
    (GenerateAndStoreTokens env).2 = (fullTrace env).take (stepsOf env) ∧
    (hasWriteTokens (GenerateAndStoreTokens env).2 = true →
      env.keyWriteOk = true ∧ hasWriteKeys (GenerateAndStoreTokens env).2 = true) ∧
    (env.issueOk = false →
      hasWriteKeys (GenerateAndStoreTokens env).2 = false ∧
      hasWriteTokens (GenerateAndStoreTokens env).2 = false) := by
  cases hip : IsValidIPAddress env.ip with
  | false =>
    simp [GenerateAndStoreTokens, stepsOf, hip, hasWriteKeys, hasWriteTokens]
  | true =>
    obtain ⟨b, hb⟩ := valid_ip_ok env.ip hip
    cases hk : env.keygenOk <;> cases hc : env.issuerCreateOk <;>
      cases hi : env.issueOk <;> cases hw : env.keyWriteOk <;>
        cases ht : env.tokenWriteOk <;>
          simp [GenerateAndStoreTokens, stepsOf, fullTrace, hip, hb, hk, hc, hi,
            hw, ht, hasWriteKeys, hasWriteTokens]

/-- Run inputs on which token issuance itself fails. -/
def envC7 : Env :=
  { ip := "192.0.2.1", numTokens := 100, pReveal := 0, outputDir := "/tmp/",
    customDbFilename := "", keygenOk := true, issuerCreateOk := true,
    issueOk := false, keyWriteOk := true, tokenWriteOk := true, clock := fun _ => 0 }

set_option maxRecDepth 10000 in
unseal Rat.mul Rat.inv Rat.add Rat.sub in
/-- Step ordering observed at concrete inputs: a successful run has its
token write preceded by a key write, and a run whose issuance fails
writes neither file. -/
theorem C7_step_order_witness :
    (hasWriteTokens (GenerateAndStoreTokens envC6).2 = true ∧
      envC6.keyWriteOk = true ∧ hasWriteKeys (GenerateAndStoreTokens envC6).2 = true) ∧
    (envC7.issueOk = false ∧
      hasWriteKeys (GenerateAndStoreTokens envC7).2 = false ∧
      hasWriteTokens (GenerateAndStoreTokens envC7).2 = false) :=
  ⟨⟨by decide, (C7_step_order envC6).2.1 (by decide)⟩,
    ⟨rfl, (C7_step_order envC7).2.2 rfl⟩⟩

/-- C8: the process exits with code 0 exactly when the requested command
succeeds — `issue` with a successful run, or the `verify` stub — and
with code 1 for every failure: too few arguments, an unknown command, or
any failing issuance step.  The unused per-category constants 2 to 5 are
never returned, so error categories differ only in the logged message. -/
theorem C8_exit_codes (args : List String) (env : Env) :
    ((mainRun args env).1 = 0 ∨ (mainRun args env).1 = 1) ∧
    ((mainRun args env).1 = 0 ↔
      ∃ a cmd rest, args = a :: cmd :: rest ∧
        (cmd = "verify" ∨
          (cmd = "issue" ∧ (GenerateAndStoreTokens env).1 = AbslStatus.ok))) ∧
    (mainRun args env).1 ≠ kErrorSignalParsing ∧
    (mainRun args env).1 ≠ kErrorTokenIssuance ∧
    (mainRun args env).1 ≠ kErrorKeyWrite ∧
    (mainRun args env).1 ≠ kErrorTokenWrite := by
  rcases args with _ | ⟨a, _ | ⟨cmd, rest⟩⟩
  · simp [mainRun, kErrorSignalParsing, kErrorTokenIssuance, kErrorKeyWrite,
      kErrorTokenWrite]
  · simp [mainRun, kErrorSignalParsing, kErrorTokenIssuance, kErrorKeyWrite,
      kErrorTokenWrite]
  · by_cases hcm : cmd = "issue"
    · subst hcm
      rcases hg : GenerateAndStoreTokens env with ⟨st, tr⟩
      by_cases hst : st = AbslStatus.ok
      · subst hst
        have hm : mainRun (a :: "issue" :: rest) env = (0, tr) := by
          simp [mainRun, hg]
        rw [hm]
        refine ⟨Or.inl rfl, ?_, by simp [kErrorSignalParsing],
          by simp [kErrorTokenIssuance], by simp [kErrorKeyWrite],
          by simp [kErrorTokenWrite]⟩
        constructor
        · intro _
          exact ⟨a, "issue", rest, rfl, Or.inr ⟨rfl, rfl⟩⟩
        · intro _
          rfl
      · have hm : mainRun (a :: "issue" :: rest) env =
            (1, tr ++ [Event.log (statusMessage st)]) := by
          simp [mainRun, hg, hst]
        rw [hm]
        refine ⟨Or.inr rfl, ?_, by simp [kErrorSignalParsing],
          by simp [kErrorTokenIssuance], by simp [kErrorKeyWrite],
          by simp [kErrorTokenWrite]⟩
        constructor
        · intro h01
          simp at h01
        · rintro ⟨a1, c1, r1, heq, hdisj⟩
          injection heq with h1 h2
          injection h2 with h2a h2b
          rcases hdisj with hv | ⟨_, hok⟩
          · rw [← h2a] at hv
            exact absurd hv (by decide)
          · exact absurd hok hst
    · by_cases hcv : cmd = "verify"
      · subst hcv
        have hm : mainRun (a :: "verify" :: rest) env = (0, []) := rfl
        rw [hm]
        refine ⟨Or.inl rfl, ?_, by simp [kErrorSignalParsing],
          by simp [kErrorTokenIssuance], by simp [kErrorKeyWrite],
          by simp [kErrorTokenWrite]⟩
        constructor
        · intro _
          exact ⟨a, "verify", rest, rfl, Or.inl rfl⟩
        · intro _
          rfl
      · have hm : mainRun (a :: cmd :: rest) env =
            (1, [Event.log
              ("Usage: prtoken <issue|verify> [options]\nbut got: " ++ cmd ++ "\n")]) := by
          simp [mainRun, hcm, hcv]
        rw [hm]
        refine ⟨Or.inr rfl, ?_, by simp [kErrorSignalParsing],
          by simp [kErrorTokenIssuance], by simp [kErrorKeyWrite],
          by simp [kErrorTokenWrite]⟩
        constructor
        · intro h01
          simp at h01
        · rintro ⟨a1, c1, r1, heq, hdisj⟩
          injection heq with h1 h2
          injection h2 with h2a h2b
          rcases hdisj with hv | ⟨hi2, _⟩
          · rw [← h2a] at hv
            exact absurd hv hcv
          · rw [← h2a] at hi2
            exact absurd hi2 hcm

/-- C9: the `verify` command returns exit code 0 with an empty effect
trace: no token is decrypted, no file is read, and nothing is logged. -/
theorem C9_verify_stub (a : String) (rest : List String) (env : Env) :
    mainRun (a :: "verify" :: rest) env = (0, []) := rfl

/-- C10: once `IsValidIPAddress` accepts the flag, `IPStringToByteArray`
returns a byte array rather than an error, so the `InvalidArgument`
branch after the signal conversion inside the issuance operation is
unreachable. -/
theorem C10_valid_ip_no_inner_error (env : Env)
    (h : IsValidIPAddress env.ip = true) :
    (∃ b, IPStringToByteArray env.ip = Except.ok b) ∧
    (GenerateAndStoreTokens env).1 ≠
      AbslStatus.invalidArgument "Invalid IPv4 or IPv6 address." := by
  obtain ⟨b, hb⟩ := valid_ip_ok env.ip h
  refine ⟨⟨b, hb⟩, ?_⟩
  cases hk : env.keygenOk <;> cases hc : env.issuerCreateOk <;>
    cases hi : env.issueOk <;> cases hw : env.keyWriteOk <;>
      cases ht : env.tokenWriteOk <;>
        simp [GenerateAndStoreTokens, h, hb, hk, hc, hi, hw, ht]

/-- Run inputs with a valid IPv6 flag. -/
def envC10 : Env :=
  { ip := "::1", numTokens := 5, pReveal := 0, outputDir := "/out",
    customDbFilename := "x.db", keygenOk := true, issuerCreateOk := true,
    issueOk := true, keyWriteOk := true, tokenWriteOk := true, clock := fun _ => 0 }

/-- The unreachability of the inner conversion error observed at a
concrete input. -/
theorem C10_valid_ip_no_inner_error_witness :
    IsValidIPAddress envC10.ip = true ∧
    ((∃ b, IPStringToByteArray envC10.ip = Except.ok b) ∧
      (GenerateAndStoreTokens envC10).1 ≠
        AbslStatus.invalidArgument "Invalid IPv4 or IPv6 address.") :=
  ⟨by decide, C10_valid_ip_no_inner_error envC10 (by decide)⟩
